import Mathlib

/-!
# Startup sequencer of the template application

Shallow embedding of `src/app/template_app/app.c`.

The translation unit defines one function, `app_template_run`, whose body is
three calls in a row to routines that are only forward-declared there:

    void app_template_run(void)
    {
        app_template_utils_init();
        app_template_model_init();
        app_template_ui_init();
    }

The three routines are external. They take no argument and return nothing, so
all they can do is act on the global state. Each one is therefore a parameter
of the development: an arbitrary function on an arbitrary state type. A call
is observed through a call log, to which the callee appends its own name.
-/

namespace AppTemplate

/-- Names of the external routines forward-declared in `app.c`. -/
inductive Routine where
  | utils_init
  | model_init
  | ui_init
  deriving DecidableEq, Repr

/-- The interpretation of the three external routines: each is a transformer
of the global state `σ`. Nothing is assumed about them. -/
structure Env (σ : Type) where
  utils : σ → σ
  model : σ → σ
  ui : σ → σ

/-- What a run can touch: the global state and the log of calls made so far,
oldest first. -/
structure World (σ : Type) where
  state : σ
  log : List Routine

/-- One invocation of an external routine, a C procedure `void f(void)`: no
argument, no result (`Unit`), an effect on the world. The callee records its
name at the end of the log and transforms the global state. -/
def invoke {σ : Type} (name : Routine) (body : σ → σ) : StateM (World σ) Unit :=
  modify fun w => { state := body w.state, log := w.log ++ [name] }

/-- `void app_template_utils_init(void);` -/
def app_template_utils_init {σ : Type} (env : Env σ) : StateM (World σ) Unit :=
  invoke Routine.utils_init env.utils

/-- `void app_template_model_init(void);` -/
def app_template_model_init {σ : Type} (env : Env σ) : StateM (World σ) Unit :=
  invoke Routine.model_init env.model

/-- `void app_template_ui_init(void);` -/
def app_template_ui_init {σ : Type} (env : Env σ) : StateM (World σ) Unit :=
  invoke Routine.ui_init env.ui

/-- `void app_template_run(void)`, statement for statement. -/
def app_template_run {σ : Type} (env : Env σ) : StateM (World σ) Unit := do
  app_template_utils_init env
  app_template_model_init env
  app_template_ui_init env

/-- A caller that runs the entry point twice in succession. -/
def app_template_run_twice {σ : Type} (env : Env σ) : StateM (World σ) Unit := do
  app_template_run env
  app_template_run env

/-- The world in which a procedure leaves off. -/
def exec {σ : Type} (p : StateM (World σ) Unit) (w : World σ) : World σ :=
  (p.run w).2

/-- The value a procedure hands back to its caller. -/
def result {σ : Type} (p : StateM (World σ) Unit) (w : World σ) : Unit :=
  (p.run w).1

/-- The part of the log written since the log `before` was observed. -/
def newCalls {σ : Type} (before : List Routine) (w : World σ) : List Routine :=
  w.log.drop before.length

/-- The three external routines applied one after the other, utilities first. -/
def initAll {σ : Type} (env : Env σ) (s : σ) : σ :=
  env.ui (env.model (env.utils s))

/-- The interpretation in which no routine touches the state. -/
def idleEnv (σ : Type) : Env σ :=
  { utils := id, model := id, ui := id }

/-- A test double whose state is an error flag and a counter: the utility
initialisation raises the flag, the model initialisation doubles the counter,
the UI initialisation adds one to it. -/
def failingEnv : Env (Bool × Nat) :=
  { utils := fun s => (true, s.2),
    model := fun s => (s.1, 2 * s.2),
    ui := fun s => (s.1, s.2 + 1) }

/-! ## Unfolding lemmas -/

theorem exec_invoke {σ : Type} (name : Routine) (body : σ → σ) (w : World σ) :
    exec (invoke name body) w = { state := body w.state, log := w.log ++ [name] } :=
  rfl

theorem exec_run {σ : Type} (env : Env σ) (w : World σ) :
    exec (app_template_run env) w =
      { state := initAll env w.state,
        log := w.log ++ [Routine.utils_init, Routine.model_init, Routine.ui_init] } := by
  show World.mk _ (((w.log ++ _) ++ _) ++ _) = _
  simp [initAll]

theorem exec_run_twice {σ : Type} (env : Env σ) (w : World σ) :
    exec (app_template_run_twice env) w =
      exec (app_template_run env) (exec (app_template_run env) w) :=
  rfl

theorem newCalls_append {σ : Type} (before added : List Routine) (s : σ) :
    newCalls before ({ state := s, log := before ++ added } : World σ) = added := by
  simp [newCalls]

/-- The sequencer evaluated on the test double: the flag raised by the first
routine stops nothing, and the counter shows the order of the other two. -/
theorem exec_run_failingEnv :
    (exec (app_template_run failingEnv) { state := (false, 5), log := [] }).state = (true, 11)
      ∧ (exec (app_template_run failingEnv) { state := (false, 5), log := [] }).log =
          [Routine.utils_init, Routine.model_init, Routine.ui_init]
      ∧ (exec (app_template_run_twice failingEnv) { state := (false, 5), log := [] }).state =
          (true, 23) := by
  decide

/-! ## Properties of the sequencer -/

/-- C1: whatever the three routines do to the state, one call of
`app_template_run` extends the call log by exactly
`[utils_init, model_init, ui_init]`: the earlier log is kept, the three names
are the only new entries, each occurs once, in that order, and the procedure
hands back the unit value only. -/
theorem run_calls_each_routine_once_in_order {σ : Type} (env : Env σ) (w : World σ) :
    (exec (app_template_run env) w).log =
        w.log ++ [Routine.utils_init, Routine.model_init, Routine.ui_init]
      ∧ newCalls w.log (exec (app_template_run env) w) =
        [Routine.utils_init, Routine.model_init, Routine.ui_init]
      ∧ (∀ r : Routine, (newCalls w.log (exec (app_template_run env) w)).count r = 1)
      ∧ result (app_template_run env) w = () := by
  rw [exec_run, newCalls_append]
  refine ⟨rfl, rfl, ?_, rfl⟩
  intro r
  cases r <;> decide

/-- C2: the state after `app_template_run` is the UI initialisation applied to
the model initialisation applied to the utility initialisation of the starting
state, and with routines that leave the state alone the run leaves it alone. -/
theorem run_state_is_composition {σ : Type} (env : Env σ) (w : World σ) :
    (exec (app_template_run env) w).state = env.ui (env.model (env.utils w.state))
      ∧ (exec (app_template_run (idleEnv σ)) w).state = w.state := by
  rw [exec_run, exec_run]
  exact ⟨rfl, rfl⟩

/-- C3: two calls of `app_template_run` in succession extend the log by the
three names twice over, so each routine is invoked twice, the state is the
composition of the three routines applied twice, and the second call leaves
the state of the first in place exactly when the composition is idempotent
there. -/
theorem run_twice_repeats_all_calls {σ : Type} (env : Env σ) (w : World σ) :
    (exec (app_template_run_twice env) w).log =
        w.log ++ [Routine.utils_init, Routine.model_init, Routine.ui_init,
                  Routine.utils_init, Routine.model_init, Routine.ui_init]
      ∧ (∀ r : Routine, (newCalls w.log (exec (app_template_run_twice env) w)).count r = 2)
      ∧ (exec (app_template_run_twice env) w).state =
          env.ui (env.model (env.utils (env.ui (env.model (env.utils w.state)))))
      ∧ ((exec (app_template_run_twice env) w).state = (exec (app_template_run env) w).state
          ↔ initAll env (initAll env w.state) = initAll env w.state)
      ∧ ((∀ v : World σ, (exec (app_template_run_twice env) v).state =
              (exec (app_template_run env) v).state)
          ↔ ∀ s : σ, initAll env (initAll env s) = initAll env s) := by
  have hlog : (exec (app_template_run_twice env) w).log =
      w.log ++ [Routine.utils_init, Routine.model_init, Routine.ui_init,
                Routine.utils_init, Routine.model_init, Routine.ui_init] := by
    simp [exec_run_twice, exec_run]
  refine ⟨hlog, ?_, ?_, ?_, ?_⟩
  · intro r
    have h : newCalls w.log (exec (app_template_run_twice env) w) =
        [Routine.utils_init, Routine.model_init, Routine.ui_init,
         Routine.utils_init, Routine.model_init, Routine.ui_init] := by
      simp [newCalls, hlog]
    rw [h]
    cases r <;> decide
  · simp [exec_run_twice, exec_run, initAll]
  · simp [exec_run_twice, exec_run]
  · constructor
    · intro h s
      have := h { state := s, log := [] }
      simpa [exec_run_twice, exec_run] using this
    · intro h v
      simpa [exec_run_twice, exec_run] using h v.state

end AppTemplate
